import Mathlib

/-!
Verification development for `pynativefiledialog`
(src/pynativefiledialog/__init__.py).

Shallow embedding conventions:
- Python `str` is modelled as `List Char` (`PyStr`); `str.lower()` is modelled
  with Lean's ASCII `Char.toLower`, which agrees with Python on the ASCII
  inputs the claims exercise.
- `HRESULT` values are modelled as `Int` (the signed value produced by the
  `c_long` restype of the ctypes bindings).
- `DWORD` values are modelled as `Nat` reduced modulo `2 ^ 32`.
- The COM environment (result codes and out-parameters produced by the OS for
  each call `_get_paths` makes) is an explicit oracle record `Env`; the session
  `getPaths` is a pure function of the configuration and that oracle, and it
  additionally returns the trace of interface-pointer acquire/release events.
-/

set_option maxRecDepth 4000

namespace PyNFD

/-- Python `str`, modelled as its sequence of characters. -/
abbrev PyStr := List Char

/-- Python `s.lower()` (ASCII model). -/
def pyLower (s : PyStr) : PyStr := s.map Char.toLower

/-- Python `s.startswith(pre)`. -/
def startswith (s pre : PyStr) : Bool := pre.isPrefixOf s

/-- Python `s.endswith(suf)`. -/
def endswith (s suf : PyStr) : Bool := suf.isSuffixOf s

/-- Python `s.lstrip(strip)`: drop leading characters belonging to `strip`. -/
def lstrip (strip : List Char) (s : PyStr) : PyStr :=
  s.dropWhile (fun c => strip.contains c)

/-- Python `sep.join(xs)`. -/
def joinSep (sep : PyStr) : List PyStr → PyStr
  | [] => []
  | [x] => x
  | x :: y :: xs => x ++ sep ++ joinSep sep (y :: xs)

/-- Python `s.split(sep)` for a one-character separator. -/
def pySplit (sep : Char) (s : PyStr) : List PyStr := s.splitOn sep

/-- Python list indexing `l[i]` with an `int` index: negative indices count
from the end; an out-of-range access is `none` (an `IndexError`). -/
def pyIndex {α : Type} (l : List α) (i : Int) : Option α :=
  if 0 ≤ i then l[i.toNat]?
  else if 0 ≤ (l.length : Int) + i then l[((l.length : Int) + i).toNat]?
  else none

/-- The `FileFilter` dataclass: a display label and the stored (already
normalized) `_extensions` tuple. -/
structure FileFilter where
  label : PyStr
  exts : List PyStr
  deriving DecidableEq, Repr

namespace FileFilter

/-- `if ext.endswith("."): ext += "*"`. -/
def normStep1 (ext : PyStr) : PyStr :=
  if endswith ext ".".data then ext ++ "*".data else ext

/-- `if ext.startswith("."): ext = "*" + ext`. -/
def normStep2 (ext : PyStr) : PyStr :=
  if startswith ext ".".data then "*".data ++ ext else ext

/-- `if not ext.startswith("*"): ext = "*." + ext`. -/
def normStep3 (ext : PyStr) : PyStr :=
  if startswith ext "*".data then ext else "*.".data ++ ext

/-- `FileFilter._normalize`: normalize a single file extension. -/
def normalize (ext : PyStr) : PyStr :=
  if ext = [] ∨ ext = "*".data ∨ ext = ".".data ∨ ext = "*.*".data then
    "*.*".data
  else normStep3 (normStep2 (normStep1 ext))

/-- `FileFilter._normalize_label`: decorate the label with the cleaned
extension list, as in `"<label> (png, jpg)"`. -/
def normalizeLabel (label : PyStr) (extensions : List PyStr) : PyStr :=
  if extensions ≠ [] ∧ "*.*".data ∉ extensions then
    label ++ " (".data ++ joinSep ", ".data (extensions.map (lstrip ['*', '.']))
      ++ ")".data
  else label

/-- The `extensions` property setter: store the normalized extensions and
rewrite the label. -/
def setExtensions (f : FileFilter) (values : List PyStr) : FileFilter :=
  let e := values.map normalize
  { exts := e, label := normalizeLabel f.label e }

/-- `FileFilter.__init__(label, extensions)`. -/
def init (label : PyStr) (extensions : List PyStr) : FileFilter :=
  setExtensions { label := label, exts := [] } extensions

/-- The read-only `extensions` property. -/
def extensions (f : FileFilter) : List PyStr := f.exts

/-- The `pattern` property: the Windows-compatible filter pattern. -/
def pattern (f : FileFilter) : PyStr :=
  if f.exts = [] then "*.*".data else joinSep ";".data f.exts

/-- `FileFilter.matches(path)`. -/
def matchesFn (f : FileFilter) (path : PyStr) : Bool :=
  if f.exts = [] ∨ "*.*".data ∈ f.exts then true
  else (f.exts.map (lstrip ['*'])).any (fun suf => endswith (pyLower path) suf)

/-- `FileFilter.normalize_extension(path)`: append the default extension if
the path does not already match. -/
def normalizeExtension (f : FileFilter) (path : PyStr) : PyStr :=
  if f.matchesFn path then path else path ++ lstrip ['*'] f.exts.head!

/-- `FileFilter.validate` specialized to one `(label, pattern)` pair. -/
def validate1 (lab pat : PyStr) : FileFilter := init lab (pySplit ';' pat)

/-- `FileFilter.prepare`: the `(label, pattern)` pairs handed to the dialog. -/
def prepare (filters : List FileFilter) : List (PyStr × PyStr) :=
  filters.map (fun f => (f.label, f.pattern))

end FileFilter

/-! ### Dialog option flags (`FOS`) and option composition -/

def FOS_FORCEFILESYSTEM : Nat := 0x40
def FOS_PATHMUSTEXIST : Nat := 0x800
def FOS_FILEMUSTEXIST : Nat := 0x1000
def FOS_ALLOWMULTISELECT : Nat := 0x200

/-- The read-modify-write options computation of `_get_paths`:
`flags.value |= FORCEFILESYSTEM | PATHMUSTEXIST | FILEMUSTEXIST
| (bool(multichoice) and ALLOWMULTISELECT) | add_flags`, stored back into a
32-bit `DWORD`. -/
def composeFlags (prior : Nat) (multichoice : Bool) (addFlags : Nat) : Nat :=
  (prior |||
    (FOS_FORCEFILESYSTEM ||| FOS_PATHMUSTEXIST ||| FOS_FILEMUSTEXIST |||
      (if multichoice then FOS_ALLOWMULTISELECT else 0) ||| addFlags)) % 2 ^ 32

/-! ### HRESULT interpretation -/

/-- `ERROR_CANCELLED` as the raw 32-bit constant. -/
def ERROR_CANCELLED_RAW : Nat := 0x800704C7

/-- Signed 32-bit reinterpretation, as performed by `ctypes.c_long(x).value`. -/
def toSigned32 (n : Nat) : Int :=
  if n % 2 ^ 32 < 2 ^ 31 then ((n % 2 ^ 32 : Nat) : Int)
  else ((n % 2 ^ 32 : Nat) : Int) - 2 ^ 32

/-- The signed comparison value `ctypes.c_long(ERROR_CANCELLED).value` used
against the `HRESULT` returned by `Show`. -/
def ERROR_CANCELLED_SIGNED : Int := toSigned32 ERROR_CANCELLED_RAW

/-! ### The dialog session `_get_paths` -/

/-- Identity of an interface pointer acquired during one session: the dialog
object, the initial-folder shell item, the save-mode result item, the i-th
open-mode result item, or the open-mode result item-array. -/
inductive Ptr : Type
  | com
  | dir
  | saveItem
  | openItem (i : Nat)
  | mult
  deriving DecidableEq, Repr

/-- An acquire or release of an interface pointer. -/
inductive Event : Type
  | acquire (p : Ptr)
  | release (p : Ptr)
  deriving DecidableEq, Repr

/-- The exceptions `_get_paths` can raise. -/
inductive PyErr : Type
  | coInitFailed
  | coCreateFailed
  | dialogFailed (hr : Int)
  deriving DecidableEq, Repr

/-- The value `_get_paths` returns: `None`, a single path, or a list. -/
inductive PathResult : Type
  | none
  | one (p : PyStr)
  | many (ps : List PyStr)
  deriving DecidableEq, Repr

/-- `result = paths; if result and not multichoice: result = result[0];
return result or None`. -/
def finishResult (multichoice : Bool) (paths : List PyStr) : PathResult :=
  match paths with
  | [] => .none
  | p :: rest =>
    if multichoice then .many (p :: rest)
    else if p = [] then .none else .one p

/-- The caller-controlled arguments of `_get_paths`. -/
structure Config where
  title : Option PyStr
  init_dir : Bool
  init_file : Option PyStr
  multichoice : Bool
  confirm_button_label : Option PyStr
  input_label : Option PyStr
  add_flags : Nat
  file_type_filters : List FileFilter
  save_mode : Bool

/-- The OS oracle: result codes and out-parameter values produced by the COM
runtime for each call the session makes. `getItemAtHr`, `getNameHr` and
`itemPath` are indexed by the open-mode loop counter. -/
structure Env where
  coInitializeHr : Int
  coCreateHr : Int
  coCreateIsNull : Bool
  getOptions : Nat
  shCreateHr : Int
  showHr : Int
  getResultHr : Int
  saveGetNameHr : Int
  savePath : PyStr
  fileTypeIdx : Nat
  getResultsHr : Int
  getCountHr : Int
  count : Nat
  getItemAtHr : Nat → Int
  getNameHr : Nat → Int
  itemPath : Nat → PyStr

/-- Save-mode filter lookup and extension normalization:
`prepared_filters[filetypeidx.value - 1]` (a Python indexing, so index 0
wraps to the last entry), fed through `FileFilter.validate` and
`normalize_extension`; an `IndexError` falls back to the raw path. -/
def saveNormalize (prepared : List (PyStr × PyStr)) (idx : Nat) (path : PyStr) :
    PyStr :=
  match pyIndex prepared ((idx : Int) - 1) with
  | some lp => (FileFilter.validate1 lp.1 lp.2).normalizeExtension path
  | none => path

/-- What one arm of result extraction produces: the collected paths, the
pointer identity still held by the `item` variable, whether `mult` was
acquired, and the acquire/release events emitted. -/
structure ExtractOut where
  paths : List PyStr
  itemHeld : Option Ptr
  multHeld : Bool
  events : List Event
  deriving DecidableEq, Repr

/-- Save-mode extraction: `GetResult`, then
`GetName(item, ...) >= (Release(item) and 0)` (which always calls `Release`
once `GetResult` succeeded), then the filter-index normalization. -/
def saveExtract (prepared : List (PyStr × PyStr)) (env : Env) : ExtractOut :=
  if 0 ≤ env.getResultHr then
    let evs := [Event.acquire .saveItem, Event.release .saveItem]
    if 0 ≤ env.saveGetNameHr then
      ⟨[saveNormalize prepared env.fileTypeIdx env.savePath], some .saveItem,
        false, evs⟩
    else ⟨[], some .saveItem, false, evs⟩
  else ⟨[], none, false, []⟩

/-- The open-mode `for i in range(count)` loop, with `i` the current index and
the fuel the remaining iterations. Returns the collected paths, the index of
the last item written into `item` within this suffix of the loop (if any), and
the events emitted. `GetName(item, ...) < (Release(item) and 0)` always calls
`Release` once `GetItemAt` succeeded. -/
def openLoop (env : Env) (i : Nat) : Nat → List PyStr × Option Nat × List Event
  | 0 => ([], none, [])
  | n + 1 =>
    if env.getItemAtHr i < 0 then ([], none, [])
    else
      let evs := [Event.acquire (.openItem i), Event.release (.openItem i)]
      if env.getNameHr i < 0 then ([], some i, evs)
      else
        let r := openLoop env (i + 1) n
        (env.itemPath i :: r.1, some (r.2.1.getD i), evs ++ r.2.2)

/-- Open-mode extraction: `GetResults`, `GetCount`, then the item loop. -/
def openExtract (env : Env) : ExtractOut :=
  if 0 ≤ env.getResultsHr then
    if 0 ≤ env.getCountHr then
      let r := openLoop env 0 env.count
      ⟨r.1, r.2.1.map Ptr.openItem, true, Event.acquire .mult :: r.2.2⟩
    else ⟨[], none, true, [Event.acquire .mult]⟩
  else ⟨[], none, false, []⟩

/-- Result extraction after a successful `Show`, by mode. -/
def extract (cfg : Config) (env : Env) : ExtractOut :=
  if cfg.save_mode then saveExtract (FileFilter.prepare cfg.file_type_filters) env
  else openExtract env

/-- State of the `try` body when control reaches the `finally` block. -/
structure BodyOut where
  result : Except PyErr (List PyStr)
  optionsSet : Nat
  itemHeld : Option Ptr
  multHeld : Bool
  dirHeld : Bool
  comHeld : Bool
  initialized : Bool
  events : List Event

/-- The `try` body of `_get_paths`: CoInitialize, CoCreateInstance, option
composition, configuration, optional initial-folder binding, `Show`, and
result extraction. -/
def sessionBody (cfg : Config) (env : Env) : BodyOut :=
  if env.coInitializeHr < 0 then
    ⟨.error .coInitFailed, 0, none, false, false, false, false, []⟩
  else if env.coCreateHr < 0 ∨ env.coCreateIsNull then
    ⟨.error .coCreateFailed, 0, none, false, false, false, true, []⟩
  else
    let acqCom := [Event.acquire Ptr.com]
    let opts := composeFlags (env.getOptions % 2 ^ 32) cfg.multichoice cfg.add_flags
    let dirHeld := cfg.init_dir && decide (0 ≤ env.shCreateHr)
    let acqDir := if dirHeld then [Event.acquire Ptr.dir] else []
    if env.showHr = ERROR_CANCELLED_SIGNED then
      ⟨.ok [], opts, none, false, dirHeld, true, true, acqCom ++ acqDir⟩
    else if env.showHr < 0 then
      ⟨.error (.dialogFailed env.showHr), opts, none, false, dirHeld, true, true,
        acqCom ++ acqDir⟩
    else
      let e := extract cfg env
      ⟨.ok e.paths, opts, e.itemHeld, e.multHeld, dirHeld, true, true,
        acqCom ++ acqDir ++ e.events⟩

/-- The `finally` block: `VTableFunc.free(item, mult, DIR, COM)` releases each
pointer variable that currently holds a non-null pointer, in that order. -/
def freeEvents (b : BodyOut) : List Event :=
  (match b.itemHeld with | some p => [Event.release p] | none => []) ++
    (if b.multHeld then [Event.release Ptr.mult] else []) ++
    (if b.dirHeld then [Event.release Ptr.dir] else []) ++
    (if b.comHeld then [Event.release Ptr.com] else [])

/-- `NativeFileDialog._get_paths`: the propagated outcome (result value or
raised exception) together with the complete acquire/release trace. -/
def getPaths (cfg : Config) (env : Env) : Except PyErr PathResult × List Event :=
  let b := sessionBody cfg env
  let evs := b.events ++ freeEvents b
  match b.result with
  | .error e => (.error e, evs)
  | .ok paths => (.ok (finishResult cfg.multichoice paths), evs)

instance {ε α : Type} [DecidableEq ε] [DecidableEq α] : DecidableEq (Except ε α)
  | .ok x, .ok y =>
    if h : x = y then isTrue (congrArg Except.ok h)
    else isFalse (fun hh => h (Except.ok.inj hh))
  | .error x, .error y =>
    if h : x = y then isTrue (congrArg Except.error h)
    else isFalse (fun hh => h (Except.error.inj hh))
  | .ok _, .error _ => isFalse (fun hh => Except.noConfusion hh)
  | .error _, .ok _ => isFalse (fun hh => Except.noConfusion hh)

/-- Number of acquisitions of pointer `p` in a trace. -/
def acquires (evs : List Event) (p : Ptr) : Nat :=
  evs.count (Event.acquire p)

/-- Number of releases of pointer `p` in a trace. -/
def releases (evs : List Event) (p : Ptr) : Nat :=
  evs.count (Event.release p)

/-- Normal form of `FileFilter._normalize` outputs: either the wildcard
pattern, or a pattern that starts with an asterisk, does not end with a dot,
and is not the bare asterisk. -/
def goodExt (r : PyStr) : Prop :=
  r = "*.*".data ∨ (r.head? = some '*' ∧ r.getLast? ≠ some '.' ∧ r ≠ "*".data)

/-!
## Theorems

### Basic evaluations of the filter model
-/

example : FileFilter.init "Images".data ["png".data, "jpg".data] =
    { label := "Images (png, jpg)".data, exts := ["*.png".data, "*.jpg".data] } := by
  decide

example : (FileFilter.init "Images".data ["png".data, "jpg".data]).pattern
    = "*.png;*.jpg".data := by decide

example : (FileFilter.init "Images".data ["png".data, "jpg".data]).matchesFn "a.PNG".data
    = true := by decide

example : (FileFilter.init "Images".data ["png".data, "jpg".data]).normalizeExtension
    "a".data = "a.png".data := by decide

/-! ### String-model helper lemmas -/

theorem isPrefixOf_singleton {l : PyStr} {c : Char} :
    [c].isPrefixOf l = true ↔ l.head? = some c := by
  cases l with
  | nil =>
    rw [List.isPrefixOf_cons_nil]
    simp
  | cons a t =>
    rw [List.isPrefixOf_cons₂, List.isPrefixOf_nil_left, Bool.and_true,
      List.head?_cons]
    simp only [beq_iff_eq, Option.some.injEq]
    exact eq_comm

theorem startswith_singleton {s : PyStr} {c : Char} :
    startswith s [c] = true ↔ s.head? = some c := by
  simpa [startswith] using isPrefixOf_singleton (l := s) (c := c)

theorem endswith_singleton {s : PyStr} {c : Char} :
    endswith s [c] = true ↔ s.getLast? = some c := by
  have h := isPrefixOf_singleton (l := s.reverse) (c := c)
  rw [List.head?_reverse] at h
  simpa [endswith, List.isSuffixOf] using h

theorem getLast?_cons_ne_nil {α : Type} (a : α) {l : List α} (h : l ≠ []) :
    (a :: l).getLast? = l.getLast? := by
  cases l with
  | nil => exact absurd rfl h
  | cons b t => exact List.getLast?_cons_cons

theorem star_data : "*".data = ['*'] := rfl

theorem dot_data : ".".data = ['.'] := rfl

theorem stardot_data : "*.".data = ['*', '.'] := rfl

theorem stardotstar_data : "*.*".data = ['*', '.', '*'] := rfl

/-! ### Normal form of `FileFilter._normalize` -/

theorem normStep1_ne_nil {e : PyStr} (h : e ≠ []) : FileFilter.normStep1 e ≠ [] := by
  unfold FileFilter.normStep1
  split
  · simp [star_data]
  · exact h

theorem normStep1_getLast {e : PyStr} :
    (FileFilter.normStep1 e).getLast? ≠ some '.' := by
  unfold FileFilter.normStep1
  split
  · rw [star_data, List.getLast?_concat]
    decide
  · rename_i hc
    rw [dot_data] at hc
    intro hL
    exact hc (endswith_singleton.mpr hL)

theorem normStep1_ne_star {e : PyStr} (h0 : e ≠ []) (h1 : e ≠ "*".data) :
    FileFilter.normStep1 e ≠ "*".data := by
  unfold FileFilter.normStep1
  split
  · rw [star_data]
    intro hc
    have hl := congrArg List.length hc
    simp at hl
    exact h0 hl
  · exact h1

theorem normStep2_ne_nil {l : PyStr} (h : l ≠ []) : FileFilter.normStep2 l ≠ [] := by
  unfold FileFilter.normStep2
  split
  · simp [star_data]
  · exact h

theorem normStep2_getLast {l : PyStr} (h0 : l ≠ []) (h : l.getLast? ≠ some '.') :
    (FileFilter.normStep2 l).getLast? ≠ some '.' := by
  unfold FileFilter.normStep2
  split
  · rw [star_data, List.singleton_append, getLast?_cons_ne_nil _ h0]
    exact h
  · exact h

theorem normStep2_ne_star {l : PyStr} (h0 : l ≠ []) (h1 : l ≠ "*".data) :
    FileFilter.normStep2 l ≠ "*".data := by
  unfold FileFilter.normStep2
  split
  · rw [star_data, List.singleton_append]
    intro hc
    simp at hc
    exact h0 hc
  · exact h1

theorem normStep3_good {l : PyStr} (h0 : l ≠ []) (hL : l.getLast? ≠ some '.')
    (hs : l ≠ "*".data) :
    (FileFilter.normStep3 l).head? = some '*' ∧
      (FileFilter.normStep3 l).getLast? ≠ some '.' ∧
      FileFilter.normStep3 l ≠ "*".data := by
  unfold FileFilter.normStep3
  split
  · rename_i hc
    rw [star_data] at hc
    exact ⟨startswith_singleton.mp hc, hL, hs⟩
  · rw [stardot_data]
    refine ⟨rfl, ?_, ?_⟩
    · rw [List.cons_append, List.singleton_append,
        getLast?_cons_ne_nil '*' (List.cons_ne_nil '.' l),
        getLast?_cons_ne_nil '.' h0]
      exact hL
    · rw [star_data, List.cons_append, List.singleton_append]
      intro hc
      simp at hc

theorem normalize_good (e : PyStr) : goodExt (FileFilter.normalize e) := by
  unfold FileFilter.normalize
  split
  · exact Or.inl rfl
  · rename_i h
    push_neg at h
    obtain ⟨h0, h1, _, _⟩ := h
    right
    exact normStep3_good
      (normStep2_ne_nil (normStep1_ne_nil h0))
      (normStep2_getLast (normStep1_ne_nil h0) normStep1_getLast)
      (normStep2_ne_star (normStep1_ne_nil h0) (normStep1_ne_star h0 h1))

theorem normalize_fixed {r : PyStr} (h : goodExt r) : FileFilter.normalize r = r := by
  by_cases hr : r = "*.*".data
  · subst hr
    decide
  · rcases h with h | ⟨hh, hL, hs⟩
    · exact absurd h hr
    · have h0 : r ≠ [] := by
        intro hc
        rw [hc] at hh
        simp at hh
      have hdot : r ≠ ".".data := by
        intro hc
        rw [hc] at hh
        rw [dot_data] at hh
        simp at hh
      unfold FileFilter.normalize
      rw [if_neg]
      · have e1 : FileFilter.normStep1 r = r := by
          unfold FileFilter.normStep1
          rw [if_neg]
          intro hc
          rw [dot_data] at hc
          exact hL (endswith_singleton.mp hc)
        have e2 : FileFilter.normStep2 r = r := by
          unfold FileFilter.normStep2
          rw [if_neg]
          intro hc
          rw [dot_data] at hc
          have := startswith_singleton.mp hc
          rw [this] at hh
          simp at hh
        have e3 : FileFilter.normStep3 r = r := by
          unfold FileFilter.normStep3
          rw [if_pos]
          rw [star_data]
          exact startswith_singleton.mpr hh
        rw [e1, e2, e3]
      · rintro (hc | hc | hc | hc)
        · exact h0 hc
        · exact hs hc
        · exact hdot hc
        · exact hr hc

theorem goodExt_two_le_length {r : PyStr} (h : goodExt r) : 2 ≤ r.length := by
  rcases h with h | ⟨hh, _, hs⟩
  · rw [h, stardotstar_data]
    decide
  · cases r with
    | nil => simp at hh
    | cons a t =>
      cases t with
      | nil =>
        rw [List.head?_cons, Option.some.injEq] at hh
        rw [hh] at hs
        exact absurd star_data.symm hs
      | cons b u => simp

/-! ### Length facts used for the pattern characterization -/

theorem joinSep_cons_cons_length (sep x y : PyStr) (t : List PyStr) :
    (joinSep sep (x :: y :: t)).length
      = x.length + sep.length + (joinSep sep (y :: t)).length := by
  rw [show joinSep sep (x :: y :: t) = x ++ sep ++ joinSep sep (y :: t) from rfl]
  simp [List.length_append]
  omega

theorem joinSep_head_le (sep x : PyStr) (t : List PyStr) :
    x.length ≤ (joinSep sep (x :: t)).length := by
  cases t with
  | nil => exact Nat.le_refl _
  | cons y u =>
    rw [joinSep_cons_cons_length]
    omega

theorem pattern_cons_cons_ne (label e1 e2 : PyStr) (u : List PyStr) :
    (FileFilter.init label (e1 :: e2 :: u)).pattern ≠ "*.*".data := by
  intro h
  have g1 := goodExt_two_le_length (normalize_good e1)
  have g2 := goodExt_two_le_length (normalize_good e2)
  have g3 := joinSep_head_le ";".data (FileFilter.normalize e2)
    (u.map FileFilter.normalize)
  have h3 : (FileFilter.init label (e1 :: e2 :: u)).pattern.length = 3 := by
    rw [h]
    rfl
  have h4 : (FileFilter.init label (e1 :: e2 :: u)).pattern.length
      = (FileFilter.normalize e1).length + (";".data).length +
        (joinSep ";".data (FileFilter.normalize e2 ::
          u.map FileFilter.normalize)).length := by
    rw [show (FileFilter.init label (e1 :: e2 :: u)).pattern
        = joinSep ";".data (FileFilter.normalize e1 :: FileFilter.normalize e2 ::
            u.map FileFilter.normalize) from rfl,
      joinSep_cons_cons_length]
  have hsep : (";".data).length = 1 := rfl
  omega

/-! ### Claim theorems for the filter model -/

/-- C9: `FileFilter._normalize` is idempotent: for every extension string `e`,
`normalize (normalize e) = normalize e`. -/
theorem claim_C9_normalize_idempotent (e : PyStr) :
    FileFilter.normalize (FileFilter.normalize e) = FileFilter.normalize e :=
  normalize_fixed (normalize_good e)

/-- C7: `matches(path)` is true for every path when the filter has no
extensions or its extensions include the wildcard; otherwise it is true
exactly when the lowercased path ends with one of the filter's extension
suffixes (each stored extension with its leading asterisks stripped). -/
theorem claim_C7_matches_spec (f : FileFilter) (path : PyStr) :
    f.matchesFn path = true ↔
      (f.exts = [] ∨ "*.*".data ∈ f.exts ∨
        ∃ e ∈ f.exts, lstrip ['*'] e <:+ pyLower path) := by
  unfold FileFilter.matchesFn
  split
  · rename_i h
    simp only [true_iff]
    rcases h with h | h
    · exact Or.inl h
    · exact Or.inr (Or.inl h)
  · rename_i h
    push_neg at h
    obtain ⟨h1, h2⟩ := h
    constructor
    · intro ha
      right; right
      rw [List.any_eq_true] at ha
      obtain ⟨suf, hsuf, hend⟩ := ha
      rw [List.mem_map] at hsuf
      obtain ⟨e, he, rfl⟩ := hsuf
      exact ⟨e, he, List.isSuffixOf_iff_suffix.mp hend⟩
    · rintro (hc | hc | ⟨e, he, hsuf⟩)
      · exact absurd hc h1
      · exact absurd hc h2
      · rw [List.any_eq_true]
        exact ⟨lstrip ['*'] e, List.mem_map.mpr ⟨e, he, rfl⟩,
          List.isSuffixOf_iff_suffix.mpr hsuf⟩

/-- C8 counterexample: for the supplied extension list `["."]` the pattern is
the wildcard `"*.*"`, although that list is neither empty nor made of the
wildcard (under either spelling `"*.*"` or `"*"`), so the claimed equivalence
fails at this input. -/
theorem claim_C8_counterexample :
    (FileFilter.init "All".data [".".data]).pattern = "*.*".data ∧
      ¬([".".data] = ([] : List PyStr)) ∧
      ¬(".".data = "*.*".data ∨ ".".data = "*".data) := by
  decide

/-- C8 (amended): the pattern equals `"*.*"` exactly when the supplied
extension list is empty or is a single extension that normalizes to the
wildcard. -/
theorem claim_C8_pattern_iff (label : PyStr) (exts : List PyStr) :
    (FileFilter.init label exts).pattern = "*.*".data ↔
      (exts = [] ∨ ∃ e, exts = [e] ∧ FileFilter.normalize e = "*.*".data) := by
  cases exts with
  | nil =>
    constructor
    · intro _
      exact Or.inl rfl
    · intro _
      rfl
  | cons e t =>
    cases t with
    | nil =>
      have hp : (FileFilter.init label [e]).pattern = FileFilter.normalize e := rfl
      rw [hp]
      constructor
      · intro h
        exact Or.inr ⟨e, rfl, h⟩
      · rintro (hc | ⟨e', he', hn⟩)
        · exact absurd hc (List.cons_ne_nil e [])
        · rw [List.cons.injEq] at he'
          rw [he'.1]
          exact hn
    | cons e2 u =>
      constructor
      · intro h
        exact absurd h (pattern_cons_cons_ne label e e2 u)
      · rintro (hc | ⟨e', he', _⟩)
        · exact absurd hc (List.cons_ne_nil e (e2 :: u))
        · rw [List.cons.injEq] at he'
          exact absurd he'.2 (List.cons_ne_nil e2 u)

/-- C6 counterexample: `normalize_extension("a")` on
`FileFilter("Images", ["png","jpg"])` is not `"a*.png"`: the code strips the
leading asterisk of the first stored pattern before appending. -/
theorem claim_C6_counterexample :
    (FileFilter.init "Images".data ["png".data, "jpg".data]).normalizeExtension
      "a".data ≠ "a*.png".data := by
  decide

/-- C6 (amended): for `FileFilter("Images", ["png","jpg"])` the pattern is
`"*.png;*.jpg"`, the label is `"Images (png, jpg)"`, `matches("a.PNG")` holds,
`matches("a.txt")` fails, and `normalize_extension("a")` is `"a.png"` (the
first pattern's suffix with the asterisk stripped is appended). -/
theorem claim_C6_scenario :
    (FileFilter.init "Images".data ["png".data, "jpg".data]).pattern
        = "*.png;*.jpg".data ∧
      (FileFilter.init "Images".data ["png".data, "jpg".data]).label
        = "Images (png, jpg)".data ∧
      (FileFilter.init "Images".data ["png".data, "jpg".data]).matchesFn
        "a.PNG".data = true ∧
      (FileFilter.init "Images".data ["png".data, "jpg".data]).matchesFn
        "a.txt".data = false ∧
      (FileFilter.init "Images".data ["png".data, "jpg".data]).normalizeExtension
        "a".data = "a.png".data := by
  decide

/-- C10: re-assigning the same extension list to a filter whose stored
extensions are non-empty and wildcard-free keeps the extensions unchanged but
decorates the already-decorated label again with the
`" (ext1, ext2, ...)"` suffix, so the label update is not idempotent. -/
theorem claim_C10_label_growth (f : FileFilter) (values : List PyStr)
    (h1 : (f.setExtensions values).exts ≠ [])
    (h2 : "*.*".data ∉ (f.setExtensions values).exts) :
    ((f.setExtensions values).setExtensions values).exts
        = (f.setExtensions values).exts ∧
      ((f.setExtensions values).setExtensions values).label
        = (f.setExtensions values).label ++ " (".data ++
            joinSep ", ".data
              ((f.setExtensions values).exts.map (lstrip ['*', '.'])) ++
            ")".data := by
  refine ⟨rfl, ?_⟩
  show FileFilter.normalizeLabel (f.setExtensions values).label
      (values.map FileFilter.normalize) = _
  unfold FileFilter.normalizeLabel
  rw [if_pos ⟨h1, h2⟩]
  rfl

/-- C10 witness: the concrete filter `FileFilter("Images", ["png","jpg"])`
gets the label `"Images (png, jpg) (png, jpg)"` after assigning the same
extension list a second time. -/
theorem claim_C10_witness :
    ((FileFilter.setExtensions ⟨"Images".data, []⟩
        ["png".data, "jpg".data]).setExtensions
          ["png".data, "jpg".data]).label
      = "Images (png, jpg) (png, jpg)".data :=
  ((claim_C10_label_growth ⟨"Images".data, []⟩ ["png".data, "jpg".data]
      (by decide) (by decide)).2).trans (by decide)

/-- C5: composing the dialog options (OR-ing the three baseline flags, the
multi-select flag when requested, and caller extras into the previously read
options value) sets bit 6 (filesystem-only), bit 11 (path-must-exist) and
bit 12 (file-must-exist), and clears no bit of the prior options value. -/
theorem claim_C5_options_compose (prior : Nat) (multichoice : Bool)
    (addFlags : Nat) (h : prior < 2 ^ 32) :
    (composeFlags prior multichoice addFlags).testBit 6 = true ∧
      (composeFlags prior multichoice addFlags).testBit 11 = true ∧
      (composeFlags prior multichoice addFlags).testBit 12 = true ∧
      prior &&& composeFlags prior multichoice addFlags = prior := by
  refine ⟨?_, ?_, ?_, ?_⟩
  · rw [composeFlags, Nat.testBit_mod_two_pow]
    simp only [Nat.testBit_or]
    rw [show FOS_FORCEFILESYSTEM.testBit 6 = true from by decide]
    simp
  · rw [composeFlags, Nat.testBit_mod_two_pow]
    simp only [Nat.testBit_or]
    rw [show FOS_PATHMUSTEXIST.testBit 11 = true from by decide]
    simp
  · rw [composeFlags, Nat.testBit_mod_two_pow]
    simp only [Nat.testBit_or]
    rw [show FOS_FILEMUSTEXIST.testBit 12 = true from by decide]
    simp
  · apply Nat.eq_of_testBit_eq
    intro i
    rw [Nat.testBit_and]
    by_cases hi : prior.testBit i = true
    · have hi32 : i < 32 := by
        by_contra hge
        have hle : (2 : Nat) ^ 32 ≤ 2 ^ i :=
          Nat.pow_le_pow_right (by norm_num) (by omega)
        rw [Nat.testBit_lt_two_pow (lt_of_lt_of_le h hle)] at hi
        simp at hi
      rw [hi, Bool.true_and, composeFlags, Nat.testBit_mod_two_pow]
      simp only [Nat.testBit_or, hi]
      simp [hi32]
    · have hi' : prior.testBit i = false := by
        simpa using hi
      rw [hi']
      simp

/-- C5 witness: composing with prior options 5 and extra flags 32 keeps the
baseline bits set and clears no prior bit. -/
theorem claim_C5_witness :
    (5 : Nat) < 2 ^ 32 ∧
      ((composeFlags 5 true 32).testBit 6 = true ∧
        (composeFlags 5 true 32).testBit 11 = true ∧
        (composeFlags 5 true 32).testBit 12 = true ∧
        5 &&& composeFlags 5 true 32 = 5) :=
  ⟨by decide, claim_C5_options_compose 5 true 32 (by decide)⟩

/-! ### Claim theorems for the dialog session -/

theorem openLoop_paths (env : Env) :
    ∀ (k i n : Nat), k < n →
      (∀ j, j < k → 0 ≤ env.getItemAtHr (i + j) ∧ 0 ≤ env.getNameHr (i + j)) →
      ¬(0 ≤ env.getItemAtHr (i + k) ∧ 0 ≤ env.getNameHr (i + k)) →
      (openLoop env i n).1 = (List.range k).map (fun j => env.itemPath (i + j)) := by
  intro k
  induction k with
  | zero =>
    intro i n hn _ hfail
    cases n with
    | zero => omega
    | succ m =>
      have hfail' : ¬(0 ≤ env.getItemAtHr i ∧ 0 ≤ env.getNameHr i) := by
        simpa using hfail
      by_cases hA : env.getItemAtHr i < 0
      · simp [openLoop, hA]
      · have hB : env.getNameHr i < 0 := by
          rcases not_and_or.mp hfail' with hx | hx
          · exact absurd (not_lt.mp hA) hx
          · omega
        simp [openLoop, hA, hB]
  | succ k ih =>
    intro i n hn hsucc hfail
    cases n with
    | zero => omega
    | succ m =>
      have hA : 0 ≤ env.getItemAtHr (i + 0) ∧ 0 ≤ env.getNameHr (i + 0) :=
        hsucc 0 (Nat.succ_pos k)
      simp only [Nat.add_zero] at hA
      have hA1 : ¬ env.getItemAtHr i < 0 := not_lt.mpr hA.1
      have hA2 : ¬ env.getNameHr i < 0 := not_lt.mpr hA.2
      have ht := ih (i + 1) m (by omega)
        (fun j hj => by
          have hs := hsucc (j + 1) (by omega)
          rw [show i + (j + 1) = i + 1 + j by omega] at hs
          exact hs)
        (by
          rw [show i + 1 + k = i + (k + 1) by omega]
          exact hfail)
      simp only [openLoop, hA1, if_false, hA2]
      have hmc : List.map (fun j => env.itemPath (i + 1 + j)) (List.range k)
          = List.map ((fun j => env.itemPath (i + j)) ∘ Nat.succ) (List.range k) := by
        apply List.map_congr_left
        intro j _
        simp only [Function.comp_apply]
        congr 1
        omega
      rw [ht, List.range_succ_eq_map, List.map_cons, List.map_map, hmc, Nat.add_zero]

theorem openLoop_paths_all (env : Env) :
    ∀ (n i : Nat),
      (∀ j, j < n → 0 ≤ env.getItemAtHr (i + j) ∧ 0 ≤ env.getNameHr (i + j)) →
      (openLoop env i n).1 = (List.range n).map (fun j => env.itemPath (i + j)) := by
  intro n
  induction n with
  | zero =>
    intro i _
    simp [openLoop]
  | succ m ih =>
    intro i hok
    have hA : 0 ≤ env.getItemAtHr (i + 0) ∧ 0 ≤ env.getNameHr (i + 0) :=
      hok 0 (Nat.succ_pos m)
    simp only [Nat.add_zero] at hA
    have hA1 : ¬ env.getItemAtHr i < 0 := not_lt.mpr hA.1
    have hA2 : ¬ env.getNameHr i < 0 := not_lt.mpr hA.2
    have ht := ih (i + 1)
      (fun j hj => by
        have hs := hok (j + 1) (by omega)
        rw [show i + (j + 1) = i + 1 + j by omega] at hs
        exact hs)
    simp only [openLoop, hA1, if_false, hA2]
    have hmc : List.map (fun j => env.itemPath (i + 1 + j)) (List.range m)
        = List.map ((fun j => env.itemPath (i + j)) ∘ Nat.succ) (List.range m) := by
      apply List.map_congr_left
      intro j _
      simp only [Function.comp_apply]
      congr 1
      omega
    rw [ht, List.range_succ_eq_map, List.map_cons, List.map_map, hmc, Nat.add_zero]

/-- C1 (code bug): in a fully successful save-mode session the result item is
acquired once but released twice — once inline by the
`GetName(item, ...) >= (Release(item) and 0)` expression and once more by
`VTableFunc.free(item, ...)` in the `finally` block, since `item` still holds
the released pointer. The dialog object itself is acquired and released
exactly once. -/
theorem claim_C1_item_double_release :
    acquires (getPaths ⟨none, false, none, false, none, none, 0, [], true⟩
      ⟨0, 0, false, 0, 0, 0, 0, 0, "out".data, 1, 0, 0, 0,
        fun _ => 0, fun _ => 0, fun _ => []⟩).2 .saveItem = 1 ∧
    releases (getPaths ⟨none, false, none, false, none, none, 0, [], true⟩
      ⟨0, 0, false, 0, 0, 0, 0, 0, "out".data, 1, 0, 0, 0,
        fun _ => 0, fun _ => 0, fun _ => []⟩).2 .saveItem = 2 ∧
    acquires (getPaths ⟨none, false, none, false, none, none, 0, [], true⟩
      ⟨0, 0, false, 0, 0, 0, 0, 0, "out".data, 1, 0, 0, 0,
        fun _ => 0, fun _ => 0, fun _ => []⟩).2 .com = 1 ∧
    releases (getPaths ⟨none, false, none, false, none, none, 0, [], true⟩
      ⟨0, 0, false, 0, 0, 0, 0, 0, "out".data, 1, 0, 0, 0,
        fun _ => 0, fun _ => 0, fun _ => []⟩).2 .com = 1 := by
  decide

/-- C2 counterexample: in open mode with two reported items where the second
`GetItemAt` fails, the call is not treated as failed and the partially
collected path list `["a"]` is returned rather than discarded. -/
theorem claim_C2_counterexample :
    (getPaths ⟨none, false, none, true, none, none, 0, [], false⟩
      ⟨0, 0, false, 0, 0, 0, 0, 0, [], 1, 0, 0, 2,
        fun i => if i = 0 then 0 else -1, fun _ => 0,
        fun i => if i = 0 then "a".data else "b".data⟩).1
      = .ok (.many ["a".data]) := by
  decide

/-- C2 (amended): in open mode, after a successful `Show`, the session's
outcome is fully described by: if retrieving the result collection or its
count fails, the call returns the no-selection result without raising; and
when `k` is the number of leading items whose retrieval succeeds (either all
`count` of them, or the index of the first item whose `GetItemAt` or
`GetName` fails), the call returns — without raising — the `k` paths
collected so far, in index order. -/
theorem claim_C2_open_extraction (cfg : Config) (env : Env) (k : Nat)
    (hm : cfg.save_mode = false)
    (hci : 0 ≤ env.coInitializeHr)
    (hcc : 0 ≤ env.coCreateHr)
    (hnn : env.coCreateIsNull = false)
    (hsh : 0 ≤ env.showHr)
    (hok : ∀ j, j < k → 0 ≤ env.getItemAtHr j ∧ 0 ≤ env.getNameHr j)
    (hend : k = env.count ∨
      (k < env.count ∧ ¬(0 ≤ env.getItemAtHr k ∧ 0 ≤ env.getNameHr k))) :
    (getPaths cfg env).1 =
      if env.getResultsHr < 0 ∨ env.getCountHr < 0 then .ok .none
      else .ok (finishResult cfg.multichoice ((List.range k).map env.itemPath)) := by
  have h1 : ¬ env.coInitializeHr < 0 := not_lt.mpr hci
  have h2 : ¬ (env.coCreateHr < 0 ∨ env.coCreateIsNull = true) := by
    rw [hnn]
    simp
    omega
  have hneg : ERROR_CANCELLED_SIGNED < 0 := by decide
  have hcan : ¬ env.showHr = ERROR_CANCELLED_SIGNED := by omega
  have h3 : ¬ env.showHr < 0 := not_lt.mpr hsh
  have hloop : (openLoop env 0 env.count).1 = (List.range k).map env.itemPath := by
    rcases hend with hend | ⟨hk, hfail⟩
    · rw [← hend, openLoop_paths_all env k 0 (by simpa using hok)]
      apply List.map_congr_left
      intro j _
      rw [Nat.zero_add]
    · rw [openLoop_paths env k 0 env.count hk (by simpa using hok)
        (by simpa using hfail)]
      apply List.map_congr_left
      intro j _
      rw [Nat.zero_add]
  by_cases hgr : env.getResultsHr < 0
  · have hgrF : ¬ 0 ≤ env.getResultsHr := not_le.mpr hgr
    rw [if_pos (Or.inl hgr)]
    unfold getPaths sessionBody extract openExtract
    simp [h1, h2, hcan, h3, hm, hgrF, finishResult]
  · by_cases hgc : env.getCountHr < 0
    · have hgrT : 0 ≤ env.getResultsHr := not_lt.mp hgr
      have hgcF : ¬ 0 ≤ env.getCountHr := not_le.mpr hgc
      rw [if_pos (Or.inr hgc)]
      unfold getPaths sessionBody extract openExtract
      simp [h1, h2, hcan, h3, hm, hgrT, hgcF, finishResult]
    · have hgrT : 0 ≤ env.getResultsHr := not_lt.mp hgr
      have hgcT : 0 ≤ env.getCountHr := not_lt.mp hgc
      rw [if_neg (by omega)]
      unfold getPaths sessionBody extract openExtract
      simp only [h1, if_false, h2, hcan, h3, hm, hgrT, hgcT, if_true, if_pos,
        Bool.false_eq_true, ite_false, ite_true]
      rw [hloop]

/-- C2 witness: with two reported items that are both retrieved successfully,
the call returns both paths in index order with no error. -/
theorem claim_C2_witness :
    (getPaths ⟨none, false, none, true, none, none, 0, [], false⟩
      ⟨0, 0, false, 0, 0, 0, 0, 0, [], 1, 0, 0, 2,
        fun _ => 0, fun _ => 0,
        fun i => if i = 0 then "a".data else "b".data⟩).1
      = .ok (.many ["a".data, "b".data]) :=
  (claim_C2_open_extraction
    ⟨none, false, none, true, none, none, 0, [], false⟩
    ⟨0, 0, false, 0, 0, 0, 0, 0, [], 1, 0, 0, 2,
      fun _ => 0, fun _ => 0,
      fun i => if i = 0 then "a".data else "b".data⟩
    2 rfl (by decide) (by decide) rfl (by decide) (by decide)
    (Or.inl rfl)).trans (by decide)

/-- C3: the `Show` result code is interpreted as: the signed `ERROR_CANCELLED`
value yields the non-error cancellation outcome `None`; any other negative
code raises an error carrying the raw code; a non-negative code proceeds to
result extraction. -/
theorem claim_C3_show_mapping (cfg : Config) (env : Env)
    (hci : 0 ≤ env.coInitializeHr)
    (hcc : 0 ≤ env.coCreateHr)
    (hnn : env.coCreateIsNull = false) :
    (getPaths cfg env).1 =
      if env.showHr = ERROR_CANCELLED_SIGNED then .ok .none
      else if env.showHr < 0 then .error (.dialogFailed env.showHr)
      else .ok (finishResult cfg.multichoice (extract cfg env).paths) := by
  have h1 : ¬ env.coInitializeHr < 0 := not_lt.mpr hci
  have h2 : ¬ (env.coCreateHr < 0 ∨ env.coCreateIsNull = true) := by
    rw [hnn]
    simp
    omega
  unfold getPaths sessionBody
  by_cases hc : env.showHr = ERROR_CANCELLED_SIGNED
  · simp [h1, h2, hc, finishResult]
  · by_cases h3 : env.showHr < 0
    · simp [h1, h2, hc, h3]
    · simp [h1, h2, hc, h3]

/-- C3 witness: a session whose `Show` returns the signed cancellation code
produces the `None` outcome without error. -/
theorem claim_C3_witness :
    (getPaths ⟨none, false, none, false, none, none, 0, [], false⟩
      ⟨0, 0, false, 0, 0, ERROR_CANCELLED_SIGNED, 0, 0, [], 1, 0, 0, 0,
        fun _ => 0, fun _ => 0, fun _ => []⟩).1 = .ok .none :=
  (claim_C3_show_mapping ⟨none, false, none, false, none, none, 0, [], false⟩
      ⟨0, 0, false, 0, 0, ERROR_CANCELLED_SIGNED, 0, 0, [], 1, 0, 0, 0,
        fun _ => 0, fun _ => 0, fun _ => []⟩
      (by decide) (by decide) rfl).trans (by decide)

/-- C4 counterexample: with one supplied filter `("Text (txt)", "*.txt")` and
active filter index 0 (which corresponds to no 1-based entry), the save-mode
session does not fall back to the raw path `out` but returns `out.txt`:
Python's negative indexing wraps `prepared_filters[-1]` to the last filter. -/
theorem claim_C4_counterexample :
    (getPaths ⟨none, false, none, false, none, none, 0,
        [FileFilter.init "Text".data ["txt".data]], true⟩
      ⟨0, 0, false, 0, 0, 0, 0, 0, "out".data, 0, 0, 0, 0,
        fun _ => 0, fun _ => 0, fun _ => []⟩).1
      = .ok (.one "out.txt".data) ∧ "out.txt".data ≠ "out".data := by
  decide

/-- C4 (amended): a filter index greater than the number of supplied filters
(or any index when no filters were supplied) makes the lookup fail with an
`IndexError`, and the operation falls back to the raw unmodified path; an
index of zero instead wraps to the last filter entry. -/
theorem claim_C4_index_fallback (prepared : List (PyStr × PyStr)) (idx : Nat)
    (path : PyStr) (h : prepared.length < idx ∨ prepared = []) :
    saveNormalize prepared idx path = path := by
  have hnone : pyIndex prepared ((idx : Int) - 1) = none := by
    unfold pyIndex
    cases idx with
    | zero =>
      rw [if_neg (by omega)]
      rcases h with h | h
      · omega
      · rw [if_neg]
        rw [h]
        simp
    | succ n =>
      rw [if_pos (by omega)]
      have ht : (((n + 1 : Nat) : Int) - 1).toNat = n := by omega
      rw [ht]
      apply List.getElem?_eq_none
      rcases h with h | h
      · omega
      · rw [h]
        simp
  unfold saveNormalize
  rw [hnone]

/-- C4 witness: index 2 with a single supplied filter falls back to the raw
path. -/
theorem claim_C4_witness :
    saveNormalize [("Text (txt)".data, "*.txt".data)] 2 "out".data
      = "out".data :=
  claim_C4_index_fallback [("Text (txt)".data, "*.txt".data)] 2 "out".data
    (Or.inl (by decide))

end PyNFD
